import Mathlib

/-!
Shallow embedding of the data-refresh and state-reconciliation logic of
src/src/App.tsx, a single-asset price dashboard.  JavaScript numbers are
modelled as rationals, epoch-millisecond timestamps as integers, and the
React state slices as one record.  Each fetch routine becomes a state
transition taking the outcome of its network call as an explicit
argument: Except.ok carries the parsed payload and Except.error carries
the message of the caught exception (network failure, non-2xx HTTP
status, or a downstream type error on a malformed payload).  The
locale-dependent date formatting (toLocaleDateString) is a function of
the host environment, not code of this repository, so the historical
fetcher takes it as a parameter fmt.  The console.error diagnostic
channel is modelled as a list of messages appended to the state.
-/

/-- Embeds interface PriceData (App.tsx lines 5-8). -/
structure PriceData where
  usd : ℚ
  usd_24h_change : ℚ
deriving DecidableEq

/-- Embeds interface ChartData (App.tsx lines 10-14): one short-term price
point.  The optional date field of the interface is never written or read
by the source, so it is not modelled. -/
structure ChartData where
  timestamp : ℤ
  price : ℚ
deriving DecidableEq

/-- Embeds interface HistoricalData (App.tsx lines 16-19). -/
structure HistoricalData where
  date : String
  price : ℚ
deriving DecidableEq

/-- The TypeScript union type of the timeframe state (App.tsx line 27). -/
inductive Timeframe where
  | t24h
  | t7d
  | t30d
deriving DecidableEq

/-- The string value of a Timeframe literal. -/
def Timeframe.toStr : Timeframe → String
  | .t24h => "24h"
  | .t7d => "7d"
  | .t30d => "30d"

/-- Embeds the day-count computation of fetchChartData (App.tsx line 55):
timeframe === "24h" ? 1 : timeframe === "7d" ? 7 : 30.  The comparisons
are string comparisons on the value of the timeframe state; the final
alternative of the conditional chain is a catch-all branch. -/
def timeframeDays (timeframe : String) : ℕ :=
  if timeframe = "24h" then 1 else if timeframe = "7d" then 7 else 30

/-- The day count of a Timeframe value, through its string form. -/
def Timeframe.days (t : Timeframe) : ℕ := timeframeDays t.toStr

/-- The React state slices of App (App.tsx lines 22-30), plus the list of
diagnostic messages emitted on the console.error channel. -/
structure AppState where
  ethPrice : Option ℚ
  priceChange24h : Option ℚ
  loading : Bool
  error : Option String
  chartData : List ChartData
  timeframe : Timeframe
  lastUpdate : Option ℕ
  historicalData : List HistoricalData
  loadingHistory : Bool
  log : List String
deriving DecidableEq

/-- The initial state, from the useState initialisers (App.tsx lines
22-30). -/
def initState : AppState where
  ethPrice := none
  priceChange24h := none
  loading := true
  error := none
  chartData := []
  timeframe := .t24h
  lastUpdate := none
  historicalData := []
  loadingHistory := false
  log := []

/-- Embeds fetchEthPrice (App.tsx lines 32-51).  On success the parsed
payload data.ethereum is a PriceData; now is the clock reading used for
new Date().  On failure errorMsg is the normalised exception message and
the routine sets the user-visible error string and logs a diagnostic,
touching nothing else. -/
def fetchEthPrice (st : AppState) (now : ℕ) (r : Except String PriceData) : AppState :=
  match r with
  | .ok data =>
      { st with
        ethPrice := some data.usd
        priceChange24h := some data.usd_24h_change
        lastUpdate := some now
        error := none }
  | .error errorMsg =>
      { st with
        error := some ("Error: " ++ errorMsg ++ ". Retrying...")
        log := st.log ++ ["Fetch error: " ++ errorMsg] }

/-- Embeds fetchChartData (App.tsx lines 53-72).  On success the payload
is the raw prices array of [timestamp, price] pairs, mapped positionally
into ChartData records; on failure only a diagnostic is logged. -/
def fetchChartData (st : AppState) (r : Except String (List (ℤ × ℚ))) : AppState :=
  match r with
  | .ok prices =>
      { st with chartData := prices.map fun price => ChartData.mk price.1 price.2 }
  | .error e =>
      { st with log := st.log ++ ["Failed to fetch chart data: " ++ e] }

/-- Embeds Math.round(price[1] * 100) / 100 (App.tsx line 87): rounding
to cents with the JavaScript Math.round semantics floor(x + 1/2). -/
def round2 (q : ℚ) : ℚ := (⌊q * 100 + 1/2⌋ : ℚ) / 100

/-- Embeds the downsampling step of fetchHistoricalData (App.tsx line
90): formattedData.filter((_, idx) => idx % 30 === 0), keeping the
elements whose index is divisible by 30. -/
def downsample {α : Type*} (formattedData : List α) : List α :=
  (formattedData.enum.filter fun p => p.1 % 30 == 0).map Prod.snd

/-- The first statement of fetchHistoricalData (App.tsx line 75):
setLoadingHistory(true), holding while the request is in flight. -/
def fetchHistoricalStart (st : AppState) : AppState :=
  { st with loadingHistory := true }

/-- Embeds fetchHistoricalData (App.tsx lines 74-97).  fmt is the
environment date formatter (toLocaleDateString with month short, year
2-digit).  The loading flag is raised first; on success each raw pair is
formatted and rounded, the series downsampled and stored; on failure only
a diagnostic is logged; the finally clause lowers the loading flag on
both paths. -/
def fetchHistoricalData (fmt : ℤ → String) (st : AppState)
    (r : Except String (List (ℤ × ℚ))) : AppState :=
  let s := fetchHistoricalStart st
  match r with
  | .ok prices =>
      let formattedData := prices.map fun price =>
        HistoricalData.mk (fmt price.1) (round2 price.2)
      let downsampled := downsample formattedData
      { s with historicalData := downsampled, loadingHistory := false }
  | .error e =>
      { s with
        log := s.log ++ ["Failed to fetch historical data: " ++ e]
        loadingHistory := false }

/-- Embeds the body of initializeData in the mount effect (App.tsx lines
102-107): the three fetchers awaited in sequence, then
setLoading(false). -/
def initData (fmt : ℤ → String) (st : AppState) (now : ℕ)
    (r1 : Except String PriceData) (r2 r3 : Except String (List (ℤ × ℚ))) : AppState :=
  let s1 := fetchEthPrice st now r1
  let s2 := fetchChartData s1 r2
  let s3 := fetchHistoricalData fmt s2 r3
  { s3 with loading := false }

/-- Embeds the mount effect (App.tsx lines 99-116): setLoading(true),
then initializeData. -/
def mountEffect (fmt : ℤ → String) (st : AppState) (now : ℕ)
    (r1 : Except String PriceData) (r2 r3 : Except String (List (ℤ × ℚ))) : AppState :=
  initData fmt { st with loading := true } now r1 r2 r3

/-- Embeds setTimeframe from the timeframe buttons (App.tsx lines
181-198); the timeframe-change effect then reruns fetchChartData. -/
def setTimeframe (st : AppState) (t : Timeframe) : AppState :=
  { st with timeframe := t }

/-- Models Math.min(...xs) on the nonempty argument lists the source
applies it to (App.tsx line 122 guards chartData.length > 0; the empty
case of this model is a junk value the source never relies on). -/
def mathMin : List ℚ → ℚ
  | [] => 0
  | x :: xs => xs.foldl min x

/-- Models Math.max(...xs) on nonempty argument lists (App.tsx line
123). -/
def mathMax : List ℚ → ℚ
  | [] => 0
  | x :: xs => xs.foldl max x

/-- Embeds App.tsx line 122: chartData.length > 0 ?
Math.min(...chartData.map(d => d.price)) : 0. -/
def minPrice (chartData : List ChartData) : ℚ :=
  if chartData.length > 0 then mathMin (chartData.map fun d => d.price) else 0

/-- Embeds App.tsx line 123: chartData.length > 0 ?
Math.max(...chartData.map(d => d.price)) : 0. -/
def maxPrice (chartData : List ChartData) : ℚ :=
  if chartData.length > 0 then mathMax (chartData.map fun d => d.price) else 0

/-- Embeds App.tsx line 124: chartData.length > 0 ?
chartData.reduce((sum, d) => sum + d.price, 0) / chartData.length : 0. -/
def avgPrice (chartData : List ChartData) : ℚ :=
  if chartData.length > 0 then
    (chartData.foldl (fun sum d => sum + d.price) 0) / (chartData.length : ℚ)
  else 0

/-- The three render states of the historical chart section. -/
inductive HistView where
  | loadingMsg
  | chart (data : List HistoricalData)
  | failureMsg
deriving DecidableEq

/-- Embeds the historical chart branch of the render (App.tsx lines
223-261): loadingHistory ? loading message : historicalData.length > 0 ?
chart : failure message. -/
def historicalView (st : AppState) : HistView :=
  if st.loadingHistory then .loadingMsg
  else if st.historicalData.length > 0 then .chart st.historicalData
  else .failureMsg

/-- The states reachable from the initial state through the transitions
the component can perform: the mount effect, each fetch routine alone
(the 15-second timer and the manual retry rerun fetchEthPrice, the
timeframe effect reruns fetchChartData), the in-flight phase of the
historical fetch, and a timeframe selection. -/
inductive Reachable (fmt : ℤ → String) : AppState → Prop where
  | base : Reachable fmt initState
  | quote {st : AppState} (now : ℕ) (r : Except String PriceData) :
      Reachable fmt st → Reachable fmt (fetchEthPrice st now r)
  | chart {st : AppState} (r : Except String (List (ℤ × ℚ))) :
      Reachable fmt st → Reachable fmt (fetchChartData st r)
  | histStart {st : AppState} :
      Reachable fmt st → Reachable fmt (fetchHistoricalStart st)
  | hist {st : AppState} (r : Except String (List (ℤ × ℚ))) :
      Reachable fmt st → Reachable fmt (fetchHistoricalData fmt st r)
  | mount {st : AppState} (now : ℕ) (r1 : Except String PriceData)
      (r2 r3 : Except String (List (ℤ × ℚ))) :
      Reachable fmt st → Reachable fmt (mountEffect fmt st now r1 r2 r3)
  | selectTimeframe {st : AppState} (t : Timeframe) :
      Reachable fmt st → Reachable fmt (setTimeframe st t)

/-- The Quote is absent or fully populated: price and 24h change are
either both unset or both set. -/
def quoteConsistent (st : AppState) : Prop :=
  (st.ethPrice = none ∧ st.priceChange24h = none) ∨
    ∃ p c, st.ethPrice = some p ∧ st.priceChange24h = some c

/-- The two-point short-term series of the spec scenario in section 8. -/
def demoSeries : List ChartData :=
  [ChartData.mk 1700000000000 100, ChartData.mk 1700003600000 110]

/-! ## Helper lemmas -/

theorem fetchEthPrice_loading (st : AppState) (now : ℕ) (r : Except String PriceData) :
    (fetchEthPrice st now r).loading = st.loading := by
  cases r <;> rfl

theorem fetchChartData_loading (st : AppState) (r : Except String (List (ℤ × ℚ))) :
    (fetchChartData st r).loading = st.loading := by
  cases r <;> rfl

theorem fetchHistoricalData_loading (fmt : ℤ → String) (st : AppState)
    (r : Except String (List (ℤ × ℚ))) :
    (fetchHistoricalData fmt st r).loading = st.loading := by
  cases r <;> rfl

/-! ## Claim theorems: fetch transitions -/

/-- Claim C4: a failing Quote fetch leaves the stored price and 24h
change unchanged, sets a non-empty error string containing the word
"Retrying", and appends a diagnostic to the log. -/
theorem quote_failure_spec (st : AppState) (now : ℕ) (e : String) :
    (fetchEthPrice st now (.error e)).ethPrice = st.ethPrice ∧
    (fetchEthPrice st now (.error e)).priceChange24h = st.priceChange24h ∧
    (∃ s, (fetchEthPrice st now (.error e)).error = some s ∧ s ≠ "" ∧
      ∃ a b, s = a ++ "Retrying" ++ b) ∧
    (fetchEthPrice st now (.error e)).log = st.log ++ ["Fetch error: " ++ e] := by
  refine ⟨rfl, rfl,
    ⟨"Error: " ++ e ++ ". Retrying...", rfl, ?_, "Error: " ++ e ++ ". ", "...", ?_⟩, rfl⟩
  · intro h
    have h2 := congrArg String.length h
    simp only [String.length_append] at h2
    have hl1 : String.length "Error: " = 7 := rfl
    have hl2 : String.length ". Retrying..." = 13 := rfl
    have hl3 : String.length "" = 0 := rfl
    omega
  · have hsplit : (". Retrying..." : String) = ". " ++ "Retrying" ++ "..." := by decide
    rw [hsplit]
    simp only [String.append_assoc]

/-- Claim C7: a failing Short-Term Series fetch only appends a diagnostic
to the log: the prior series is unchanged and no user-visible error is
set — asymmetric with the Quote Fetcher, whose failure does set the
error message. -/
theorem chart_failure_spec (st : AppState) (now : ℕ) (e : String) :
    (fetchChartData st (.error e)).chartData = st.chartData ∧
    (fetchChartData st (.error e)).error = st.error ∧
    fetchChartData st (.error e) =
      { st with log := st.log ++ ["Failed to fetch chart data: " ++ e] } ∧
    (fetchEthPrice st now (.error e)).error =
      some ("Error: " ++ e ++ ". Retrying...") :=
  ⟨rfl, rfl, rfl, rfl⟩

/-- Claim C10: a successful Short-Term Series fetch stores a pure
positional map of the raw prices array: same length, element i has
timestamp equal to the first component and price equal to the second
component of raw pair i, and the stored series is ascending in time
exactly when the raw array is ascending in its first components. -/
theorem chart_success_spec (st : AppState) (prices : List (ℤ × ℚ)) :
    (fetchChartData st (.ok prices)).chartData =
      prices.map (fun price => ChartData.mk price.1 price.2) ∧
    (fetchChartData st (.ok prices)).chartData.length = prices.length ∧
    (∀ i : ℕ, ((fetchChartData st (.ok prices)).chartData[i]?.map fun d => d.timestamp) =
      prices[i]?.map Prod.fst) ∧
    (∀ i : ℕ, ((fetchChartData st (.ok prices)).chartData[i]?.map fun d => d.price) =
      prices[i]?.map Prod.snd) ∧
    (List.Pairwise (fun a b => a.timestamp ≤ b.timestamp)
        (fetchChartData st (.ok prices)).chartData ↔
      List.Pairwise (fun a b : ℤ × ℚ => a.1 ≤ b.1) prices) := by
  refine ⟨rfl, by simp [fetchChartData], ?_, ?_, ?_⟩
  · intro i
    cases h : prices[i]? <;> simp [fetchChartData, List.getElem?_map, h]
  · intro i
    cases h : prices[i]? <;> simp [fetchChartData, List.getElem?_map, h]
  · simp [fetchChartData, List.pairwise_map]

/-- Claim C6: the mount effect runs the Quote, Short-Term and Historical
fetchers in sequence, the top-level loading flag stays raised through all
three and is cleared only in the final step, for success and failure
outcomes alike; when all three fail, all three diagnostics are logged in
order, so no failure aborts the sequence. -/
theorem startup_sequence_spec (fmt : ℤ → String) (st : AppState) (now : ℕ)
    (r1 : Except String PriceData) (r2 r3 : Except String (List (ℤ × ℚ))) :
    mountEffect fmt st now r1 r2 r3 =
      { fetchHistoricalData fmt
          (fetchChartData (fetchEthPrice { st with loading := true } now r1) r2) r3
        with loading := false } ∧
    (fetchEthPrice { st with loading := true } now r1).loading = true ∧
    (fetchChartData (fetchEthPrice { st with loading := true } now r1) r2).loading = true ∧
    (fetchHistoricalData fmt (fetchChartData
        (fetchEthPrice { st with loading := true } now r1) r2) r3).loading = true ∧
    (mountEffect fmt st now r1 r2 r3).loading = false ∧
    ∀ e1 e2 e3 : String,
      (mountEffect fmt st now (.error e1) (.error e2) (.error e3)).log =
        st.log ++ ["Fetch error: " ++ e1, "Failed to fetch chart data: " ++ e2,
          "Failed to fetch historical data: " ++ e3] := by
  refine ⟨rfl, ?_, ?_, ?_, rfl, ?_⟩
  · rw [fetchEthPrice_loading]
  · rw [fetchChartData_loading, fetchEthPrice_loading]
  · rw [fetchHistoricalData_loading, fetchChartData_loading, fetchEthPrice_loading]
  · intro e1 e2 e3
    simp [mountEffect, initData, fetchEthPrice, fetchChartData, fetchHistoricalData,
      fetchHistoricalStart]

/-- Claim C3 counterexample: the day-count computation has a catch-all
final branch.  The input "" is none of the three Timeframe values, yet it
is mapped to 30 — the same branch that handles "30d" — so the 30d result
comes from a default/fallback case, not from matching every Timeframe
value explicitly. -/
theorem timeframe_fallback_counterexample :
    timeframeDays "" = 30 ∧ ("" : String) ≠ "24h" ∧ ("" : String) ≠ "7d" ∧
      ("" : String) ≠ "30d" := by
  decide

/-- Claim C3 (amended): the mapping sends 24h to 1, 7d to 7 and 30d to
30, but the 30d case is handled by the final catch-all branch, which maps
every string other than "24h" and "7d" to 30. -/
theorem timeframe_days_spec :
    Timeframe.days .t24h = 1 ∧ Timeframe.days .t7d = 7 ∧ Timeframe.days .t30d = 30 ∧
    ∀ s : String, s ≠ "24h" → s ≠ "7d" → timeframeDays s = 30 := by
  refine ⟨by decide, by decide, by decide, ?_⟩
  intro s h1 h2
  simp [timeframeDays, h1, h2]

/-- Witness for the amended C3 theorem at the concrete input "30d". -/
theorem timeframe_days_witness : timeframeDays "30d" = 30 :=
  timeframe_days_spec.2.2.2 "30d" (by decide) (by decide)

/-! ## Downsampling lemmas -/

theorem enumFrom_filter_shift {α : Type*} (xs : List α) (k : ℕ) :
    ((List.enumFrom (k + 30) xs).filter fun p => p.1 % 30 == 0).map Prod.snd =
    ((List.enumFrom k xs).filter fun p => p.1 % 30 == 0).map Prod.snd := by
  induction xs generalizing k with
  | nil => rfl
  | cons x xs ih =>
    have hmod : (k + 30) % 30 = k % 30 := by omega
    have hk1 : k + 30 + 1 = k + 1 + 30 := by omega
    simp only [List.enumFrom, List.filter_cons, hmod]
    by_cases h : k % 30 = 0
    · have hb : (k % 30 == 0) = true := by simp [h]
      rw [hb, if_pos rfl, if_pos rfl, List.map_cons, List.map_cons, hk1, ih (k + 1)]
    · have hb : ¬((k % 30 == 0) = true) := by simp [h]
      rw [if_neg hb, if_neg hb, hk1, ih (k + 1)]

theorem downsample_cons_aux {α : Type*} (x : α) (xs : List α) :
    downsample (x :: xs) =
      x :: ((List.enumFrom 1 xs).filter fun p => p.1 % 30 == 0).map Prod.snd := rfl

theorem enumFrom_filter_phase {α : Type*} (xs : List α) (k : ℕ) (h1 : 0 < k) (h2 : k ≤ 30) :
    ((List.enumFrom k xs).filter fun p => p.1 % 30 == 0).map Prod.snd =
    downsample (xs.drop (30 - k)) := by
  induction xs generalizing k with
  | nil => simp [downsample]
  | cons x xs ih =>
    rcases eq_or_lt_of_le h2 with heq | hlt
    · subst heq
      rw [Nat.sub_self, List.drop_zero, downsample_cons_aux]
      have hstep : ((List.enumFrom 30 (x :: xs)).filter fun p => p.1 % 30 == 0).map Prod.snd
          = x :: ((List.enumFrom 31 xs).filter fun p => p.1 % 30 == 0).map Prod.snd := by
        simp only [List.enumFrom, List.filter_cons]
        rw [if_pos (show ((30 : ℕ) % 30 == 0) = true by decide), List.map_cons]
      have h31 : (31 : ℕ) = 1 + 30 := by norm_num
      rw [hstep, h31, enumFrom_filter_shift]
    · have hne : k % 30 ≠ 0 := by omega
      simp only [List.enumFrom, List.filter_cons]
      rw [if_neg (by simp [hne])]
      rw [ih (k + 1) (by omega) (by omega)]
      rw [show 30 - k = (30 - (k + 1)) + 1 from by omega, List.drop_succ_cons]

theorem downsample_cons {α : Type*} (x : α) (xs : List α) :
    downsample (x :: xs) = x :: downsample (xs.drop 29) := by
  rw [downsample_cons_aux]
  congr 1
  simpa using enumFrom_filter_phase xs 1 (by norm_num) (by norm_num)

theorem downsample_length_aux {α : Type*} (n : ℕ) (l : List α) (h : l.length ≤ n) :
    (downsample l).length = (l.length + 29) / 30 := by
  induction n generalizing l with
  | zero =>
    have hl : l = [] := List.length_eq_zero.mp (by omega)
    subst hl
    simp [downsample]
  | succ n ih =>
    match l with
    | [] => simp [downsample]
    | x :: xs =>
      rw [downsample_cons, List.length_cons]
      have hx : xs.length ≤ n := by
        simp only [List.length_cons] at h
        omega
      have hlen : (xs.drop 29).length ≤ n := by
        simp only [List.length_drop]
        omega
      rw [ih (xs.drop 29) hlen, List.length_drop]
      simp only [List.length_cons]
      omega

theorem downsample_length {α : Type*} (l : List α) :
    (downsample l).length = (l.length + 29) / 30 :=
  downsample_length_aux l.length l le_rfl

theorem downsample_getElem_aux {α : Type*} (n : ℕ) (l : List α) (h : l.length ≤ n) (i : ℕ) :
    (downsample l)[i]? = l[30 * i]? := by
  induction n generalizing l i with
  | zero =>
    have hl : l = [] := List.length_eq_zero.mp (by omega)
    subst hl
    simp [downsample]
  | succ n ih =>
    match l with
    | [] => simp [downsample]
    | x :: xs =>
      rw [downsample_cons]
      match i with
      | 0 => simp
      | i + 1 =>
        have hlen : (xs.drop 29).length ≤ n := by
          simp only [List.length_drop]
          simp only [List.length_cons] at h
          omega
        rw [List.getElem?_cons_succ, ih (xs.drop 29) hlen i, List.getElem?_drop]
        rw [show 30 * (i + 1) = (29 + 30 * i) + 1 from by ring_nf, List.getElem?_cons_succ]

theorem downsample_getElem {α : Type*} (l : List α) (i : ℕ) :
    (downsample l)[i]? = l[30 * i]? :=
  downsample_getElem_aux l.length l le_rfl i

/-- Claim C2: downsampling a formatted historical series of length N
keeps exactly the elements at indices 0, 30, 60, ... in order, yielding
(N + 29) / 30 = ceil(N / 30) points; a 3650-point series yields 122
points. -/
theorem downsample_stride_spec (l : List HistoricalData) :
    (downsample l).length = (l.length + 29) / 30 ∧
    (∀ i : ℕ, (downsample l)[i]? = l[30 * i]?) ∧
    (l.length = 3650 → (downsample l).length = 122) := by
  refine ⟨downsample_length l, fun i => downsample_getElem l i, fun h => ?_⟩
  rw [downsample_length l, h]

/-- Witness for C2 at a concrete 3650-point series. -/
theorem downsample_stride_witness :
    (downsample (List.replicate 3650 (HistoricalData.mk "" 0))).length = 122 :=
  (downsample_stride_spec (List.replicate 3650 (HistoricalData.mk "" 0))).2.2
    (List.length_replicate 3650 (HistoricalData.mk "" 0))

/-! ## Statistics lemmas -/

theorem foldl_min_le_init (xs : List ℚ) (x : ℚ) : xs.foldl min x ≤ x := by
  induction xs generalizing x with
  | nil => simp
  | cons y ys ih =>
    simp only [List.foldl_cons]
    exact le_trans (ih (min x y)) (min_le_left x y)

theorem foldl_min_le_mem (xs : List ℚ) (x : ℚ) : ∀ b ∈ xs, xs.foldl min x ≤ b := by
  induction xs generalizing x with
  | nil => simp
  | cons y ys ih =>
    intro b hb
    simp only [List.foldl_cons]
    rcases List.mem_cons.mp hb with rfl | hb
    · exact le_trans (foldl_min_le_init ys (min x b)) (min_le_right x b)
    · exact ih (min x y) b hb

theorem le_foldl_max_init (xs : List ℚ) (x : ℚ) : x ≤ xs.foldl max x := by
  induction xs generalizing x with
  | nil => simp
  | cons y ys ih =>
    simp only [List.foldl_cons]
    exact le_trans (le_max_left x y) (ih (max x y))

theorem le_foldl_max_mem (xs : List ℚ) (x : ℚ) : ∀ b ∈ xs, b ≤ xs.foldl max x := by
  induction xs generalizing x with
  | nil => simp
  | cons y ys ih =>
    intro b hb
    simp only [List.foldl_cons]
    rcases List.mem_cons.mp hb with rfl | hb
    · exact le_trans (le_max_right x b) (le_foldl_max_init ys (max x b))
    · exact ih (max x y) b hb

theorem mathMin_le (S : List ℚ) (h : S ≠ []) : ∀ b ∈ S, mathMin S ≤ b := by
  match S with
  | x :: xs =>
    intro b hb
    rcases List.mem_cons.mp hb with rfl | hb
    · exact foldl_min_le_init xs b
    · exact foldl_min_le_mem xs x b hb

theorem le_mathMax (S : List ℚ) (h : S ≠ []) : ∀ b ∈ S, b ≤ mathMax S := by
  match S with
  | x :: xs =>
    intro b hb
    rcases List.mem_cons.mp hb with rfl | hb
    · exact le_foldl_max_init xs b
    · exact le_foldl_max_mem xs x b hb

theorem foldl_add_eq (S : List ChartData) (a : ℚ) :
    S.foldl (fun sum d => sum + d.price) a = a + (S.map fun d => d.price).sum := by
  induction S generalizing a with
  | nil => simp
  | cons x xs ih => simp [List.foldl_cons, ih, add_assoc]

theorem minPrice_eq (S : List ChartData) (h : S ≠ []) :
    minPrice S = mathMin (S.map fun d => d.price) := by
  simp [minPrice, List.length_pos.mpr h]

theorem maxPrice_eq (S : List ChartData) (h : S ≠ []) :
    maxPrice S = mathMax (S.map fun d => d.price) := by
  simp [maxPrice, List.length_pos.mpr h]

theorem avgPrice_eq (S : List ChartData) (h : S ≠ []) :
    avgPrice S = (S.map fun d => d.price).sum / (S.length : ℚ) := by
  simp [avgPrice, List.length_pos.mpr h, foldl_add_eq]

/-! ## Claim theorems: derived statistics -/

/-- Claim C1: the derived statistics are pure functions of the short-term
series: on the empty series all three are zero, and on a non-empty series
the computed minimum and maximum are exactly the minimum and maximum of
the price fields and the mean is their arithmetic average. -/
theorem derived_stats_spec :
    (minPrice [] = 0 ∧ maxPrice [] = 0 ∧ avgPrice [] = 0) ∧
    ∀ S : List ChartData, S ≠ [] →
      (S.map fun d => d.price).min? = some (minPrice S) ∧
      (S.map fun d => d.price).max? = some (maxPrice S) ∧
      avgPrice S = (S.map fun d => d.price).sum / (S.length : ℚ) := by
  refine ⟨⟨rfl, rfl, rfl⟩, ?_⟩
  intro S hS
  match S with
  | x :: xs =>
    refine ⟨?_, ?_, avgPrice_eq (x :: xs) (by simp)⟩
    · rw [minPrice_eq (x :: xs) (by simp)]
      rfl
    · rw [maxPrice_eq (x :: xs) (by simp)]
      rfl

/-- Witness for C1 on the two-point series of the spec scenario:
min 100, max 110, mean 105. -/
theorem derived_stats_witness :
    ((demoSeries.map fun d => d.price).min? = some (minPrice demoSeries) ∧
      (demoSeries.map fun d => d.price).max? = some (maxPrice demoSeries) ∧
      avgPrice demoSeries = (demoSeries.map fun d => d.price).sum / (demoSeries.length : ℚ)) ∧
    minPrice demoSeries = 100 ∧ maxPrice demoSeries = 110 ∧ avgPrice demoSeries = 105 :=
  ⟨derived_stats_spec.2 demoSeries (by decide),
    by norm_num [minPrice, demoSeries, mathMin],
    by norm_num [maxPrice, demoSeries, mathMax],
    by norm_num [avgPrice, demoSeries]⟩

/-- Claim C5: on every non-empty short-term series the computed min and
max agree exactly with the Math.min and Math.max folds over the price
field, and min is at most the mean, which is at most the max. -/
theorem stats_order_spec (S : List ChartData) (hS : S ≠ []) :
    minPrice S = mathMin (S.map fun d => d.price) ∧
    maxPrice S = mathMax (S.map fun d => d.price) ∧
    minPrice S ≤ avgPrice S ∧ avgPrice S ≤ maxPrice S := by
  have hlen : (0 : ℚ) < (S.length : ℚ) := by
    exact_mod_cast List.length_pos.mpr hS
  have hmap : (S.map fun d => d.price) ≠ [] := by
    simpa using hS
  refine ⟨minPrice_eq S hS, maxPrice_eq S hS, ?_, ?_⟩
  · rw [avgPrice_eq S hS, minPrice_eq S hS, le_div_iff₀ hlen]
    have h := List.card_nsmul_le_sum (S.map fun d => d.price)
      (mathMin (S.map fun d => d.price)) (mathMin_le (S.map fun d => d.price) hmap)
    simpa [nsmul_eq_mul, List.length_map, mul_comm] using h
  · rw [avgPrice_eq S hS, maxPrice_eq S hS, div_le_iff₀ hlen]
    have h := List.sum_le_card_nsmul (S.map fun d => d.price)
      (mathMax (S.map fun d => d.price)) (le_mathMax (S.map fun d => d.price) hmap)
    simpa [nsmul_eq_mul, List.length_map, mul_comm] using h

/-- Witness for C5 on the two-point series of the spec scenario. -/
theorem stats_order_witness :
    minPrice demoSeries = mathMin (demoSeries.map fun d => d.price) ∧
    maxPrice demoSeries = mathMax (demoSeries.map fun d => d.price) ∧
    minPrice demoSeries ≤ avgPrice demoSeries ∧ avgPrice demoSeries ≤ maxPrice demoSeries :=
  stats_order_spec demoSeries (by decide)

/-! ## Claim theorems: historical fetch and render -/

/-- Claim C8: the historical loading flag is raised for the duration of
the fetch (rendering the loading message) and is lowered once the fetch
completes, success or failure; a failure on the initial empty series
leaves the series empty, which the view renders as the explicit failure
message, distinct from the loading state. -/
theorem historical_fetch_spec (fmt : ℤ → String) (st : AppState)
    (r : Except String (List (ℤ × ℚ))) (e : String) :
    (fetchHistoricalStart st).loadingHistory = true ∧
    historicalView (fetchHistoricalStart st) = .loadingMsg ∧
    (fetchHistoricalData fmt st r).loadingHistory = false ∧
    (st.historicalData = [] →
      (fetchHistoricalData fmt st (.error e)).historicalData = [] ∧
      historicalView (fetchHistoricalData fmt st (.error e)) = .failureMsg) := by
  refine ⟨rfl, by simp [historicalView, fetchHistoricalStart], ?_, ?_⟩
  · cases r <;> rfl
  · intro h
    constructor
    · simp [fetchHistoricalData, fetchHistoricalStart, h]
    · simp [historicalView, fetchHistoricalData, fetchHistoricalStart, h]

/-- Witness for C8 from the initial state with a failing historical
fetch. -/
theorem historical_fetch_witness :
    (fetchHistoricalData (fun _ => "") initState
      (.error "HTTP error! status: 500")).historicalData = [] ∧
    historicalView (fetchHistoricalData (fun _ => "") initState
      (.error "HTTP error! status: 500")) = .failureMsg :=
  (historical_fetch_spec (fun _ => "") initState (.error "HTTP error! status: 500")
    "HTTP error! status: 500").2.2.2 rfl

/-! ## Claim theorems: quote invariant -/

theorem quoteConsistent_fetchEthPrice {st : AppState} (h : quoteConsistent st)
    (now : ℕ) (r : Except String PriceData) :
    quoteConsistent (fetchEthPrice st now r) := by
  cases r with
  | ok d => exact Or.inr ⟨d.usd, d.usd_24h_change, rfl, rfl⟩
  | error e => exact h

theorem quoteConsistent_fetchChartData {st : AppState} (h : quoteConsistent st)
    (r : Except String (List (ℤ × ℚ))) :
    quoteConsistent (fetchChartData st r) := by
  cases r with
  | ok prices => exact h
  | error e => exact h

theorem quoteConsistent_fetchHistoricalStart {st : AppState} (h : quoteConsistent st) :
    quoteConsistent (fetchHistoricalStart st) := h

theorem quoteConsistent_fetchHistoricalData {st : AppState} (h : quoteConsistent st)
    (fmt : ℤ → String) (r : Except String (List (ℤ × ℚ))) :
    quoteConsistent (fetchHistoricalData fmt st r) := by
  cases r with
  | ok prices => exact h
  | error e => exact h

theorem quoteConsistent_setTimeframe {st : AppState} (h : quoteConsistent st)
    (t : Timeframe) : quoteConsistent (setTimeframe st t) := h

theorem quoteConsistent_mountEffect {st : AppState} (fmt : ℤ → String) (now : ℕ)
    (r1 : Except String PriceData) (r2 r3 : Except String (List (ℤ × ℚ)))
    (h : quoteConsistent st) :
    quoteConsistent (mountEffect fmt st now r1 r2 r3) := by
  have h0 : quoteConsistent { st with loading := true } := h
  exact quoteConsistent_fetchHistoricalData
    (quoteConsistent_fetchChartData (quoteConsistent_fetchEthPrice h0 now r1) r2) fmt r3

/-- Claim C9: in every reachable state the Quote is either absent (both
the price and the 24h change are unset) or fully populated (both are
set); no transition leaves it half updated. -/
theorem quote_invariant (fmt : ℤ → String) (st : AppState) (h : Reachable fmt st) :
    quoteConsistent st := by
  induction h with
  | base => exact Or.inl ⟨rfl, rfl⟩
  | quote now r _ ih => exact quoteConsistent_fetchEthPrice ih now r
  | chart r _ ih => exact quoteConsistent_fetchChartData ih r
  | histStart _ ih => exact quoteConsistent_fetchHistoricalStart ih
  | hist r _ ih => exact quoteConsistent_fetchHistoricalData ih fmt r
  | mount now r1 r2 r3 _ ih => exact quoteConsistent_mountEffect fmt now r1 r2 r3 ih
  | selectTimeframe t _ ih => exact quoteConsistent_setTimeframe ih t

/-- Witness for C9 at the initial state, which is reachable. -/
theorem quote_invariant_witness : quoteConsistent initState :=
  quote_invariant (fun _ => "") initState Reachable.base
